import Mathlib

/-!
Shallow embedding of the syscall-resolution engine of this repository
(src/Libraries/syscalls/src/hells_gate.rs and src/Libraries/syscalls/src/asm.rs).

Process memory is modelled as a total map from integer addresses to byte
values; a u8 read is the mapped value reduced mod 256 (on real byte
memories this is the identity).  Machine integers are Nat with explicit
mod-2^w reductions where the Rust types wrap (u16 arithmetic in the
hook-bypass search wraps in release builds; the 32-bit dispatch slot of
the assembly trampoline truncates its 64-bit argument).

The export table plumbing that hells_gate.rs reads through raw pointers
(names array, ordinal indirection, CRC32 hashing of the decoded name) is
abstracted per export index: NtdllConfig.nameHash i is the hash of the
decoded name at index i (none when the name is not valid UTF-8 and the
loop does continue), and NtdllConfig.funcAddr i is the ordinal-indirected
function address module_base + addresses[ordinals[i]].  The hashing
primitive and the PEB walk inside init_ntdll_config_structure live in the
external utils crate; init is therefore abstracted as an environment-given
Except value, exactly the type the source propagates with the question
mark operator.
-/

namespace Syscalls

/-- Process memory: a byte at every integer address. -/
def Mem : Type := Int → Nat

/-- A u8 load from memory (bytes are values mod 256). -/
def rd (mem : Mem) (i : Int) : Nat := mem i % 256

/-- Embeds check_syscall_bytes from hells_gate.rs: the canonical prologue
test, bytes {0,1,2,3,6,7} at the given offset must be
{0x4C,0x8B,0xD1,0xB8,0x00,0x00}. -/
def check_syscall_bytes (mem : Mem) (address offset : Int) : Bool :=
  rd mem (address + offset) == 0x4C
    && rd mem (address + (1 + offset)) == 0x8B
    && rd mem (address + (2 + offset)) == 0xD1
    && rd mem (address + (3 + offset)) == 0xB8
    && rd mem (address + (6 + offset)) == 0x00
    && rd mem (address + (7 + offset)) == 0x00

/-- Embeds extract_syscall_number from hells_gate.rs: the u16 built from
byte 5 (high) and byte 4 (low) at the given offset. -/
def extract_syscall_number (mem : Mem) (address offset : Int) : Nat :=
  (rd mem (address + (5 + offset)) <<< 8) ||| rd mem (address + (4 + offset))

/-- One iteration of the loop body of find_syscall_number for step idx:
the DOWN candidate (offset idx * 32) is tried first, then the UP candidate
(offset idx * (-32)).  The u16 subtraction and addition of the source wrap
mod 2^16 (release-build Rust semantics). -/
def bypass_step (mem : Mem) (funcAddress : Int) (idx : Nat) : Option Nat :=
  if check_syscall_bytes mem funcAddress ((idx : Int) * 32) then
    some ((extract_syscall_number mem funcAddress ((idx : Int) * 32) + 65536 - idx) % 65536)
  else if check_syscall_bytes mem funcAddress ((idx : Int) * (-32)) then
    some ((extract_syscall_number mem funcAddress ((idx : Int) * (-32)) + idx) % 65536)
  else
    none

/-- The loop of find_syscall_number, structurally recursive on the
remaining iteration count; the loop variable idx runs while idx <= RANGE
(RANGE = 0xFF). -/
def find_loop (mem : Mem) (funcAddress : Int) (idx : Nat) : Nat → Option Nat
  | 0 => none
  | fuel + 1 =>
    if idx ≤ 255 then
      match bypass_step mem funcAddress idx with
      | some r => some r
      | none => find_loop mem funcAddress (idx + 1) fuel
    else
      none

/-- Embeds find_syscall_number from hells_gate.rs: iterate idx = 1..=255. -/
def find_syscall_number (mem : Mem) (funcAddress : Int) : Option Nat :=
  find_loop mem funcAddress 1 255

/-- Embeds the NtSyscall struct of hells_gate.rs. -/
structure NtSyscall where
  dw_ssn : Nat
  dw_syscall_hash : Nat
  p_syscall_address : Int
deriving DecidableEq

/-- Embeds the NtdllConfig struct of hells_gate.rs, with the raw-pointer
export-table plumbing abstracted per index: nameHash i is the CRC32 hash
of the name at index i after UTF-8 decoding (none when decoding fails and
the scan continues), funcAddr i is the ordinal-indirected address
module_base + addresses_slice[ordinals_slice[i]]. -/
structure NtdllConfig where
  numberOfNames : Nat
  nameHash : Nat → Option Nat
  funcAddr : Nat → Int

/-- The process-wide mutable state of hells_gate.rs: G_NTDLL_CONF (none
while u_module is still 0, i.e. not yet initialized) and SYSCALL_CACHE. -/
structure GState where
  conf : Option NtdllConfig
  cache : List NtSyscall

/-- The read-only environment of one call: the outcome of
init_ntdll_config_structure (whose PEB walk lives in the external utils
crate) and the process memory holding the function prologues. -/
structure Env where
  initRes : Except String NtdllConfig
  mem : Mem

/-- Instrumentation of one fetch_nt_syscall call: how many times the
config-initialization ran, how many cache lookups were made, which export
indices the name scan visited (in order), and how many times
find_syscall_number was invoked. -/
structure Trace where
  inits : Nat
  cacheLookups : Nat
  scanned : List Nat
  bypassCalls : Nat
deriving DecidableEq

/-- Result of the export-name scan loop of fetch_nt_syscall. -/
structure ScanOut where
  result : Except String NtSyscall
  cache : List NtSyscall
  visited : List Nat
  bypassCalls : Nat

/-- Result of one fetch_nt_syscall call: the returned value, the global
state afterwards, and the instrumentation trace. -/
structure FetchOut where
  result : Except String NtSyscall
  state : GState
  trace : Trace

/-- Embeds search_syscall_in_cache from hells_gate.rs. -/
def search_syscall_in_cache (cache : List NtSyscall) (hash : Nat) : Option NtSyscall :=
  cache.find? (fun syscall => syscall.dw_syscall_hash == hash)

/-- Embeds the for-loop body of fetch_nt_syscall over the remaining export
indices.  For each index: hash the decoded name (skip on decode failure);
on a hash match set the address, then try in order the canonical-prologue
branch, the hooked scenario 1 (byte 0 = 0xE9) and the hooked scenario 2
(byte 3 = 0xE9); when none of the three returns, the loop continues with
the next index. -/
def scan (env : Env) (conf : NtdllConfig) (hash : Nat) (cache : List NtSyscall) :
    List Nat → ScanOut
  | [] => ⟨Except.error "fetch_nt_syscall: Finished without finding syscall", cache, [], 0⟩
  | i :: rest =>
    let cont : Nat → ScanOut := fun bp =>
      let out := scan env conf hash cache rest
      ⟨out.result, out.cache, i :: out.visited, bp + out.bypassCalls⟩
    match conf.nameHash i with
    | none => cont 0
    | some h =>
      if h = hash then
        let a := conf.funcAddr i
        if check_syscall_bytes env.mem a 0 then
          let nt : NtSyscall := ⟨extract_syscall_number env.mem a 0, hash, a⟩
          ⟨Except.ok nt, cache ++ [nt], [i], 0⟩
        else if rd env.mem a = 0xE9 then
          match find_syscall_number env.mem a with
          | some ssn => ⟨Except.ok ⟨ssn, hash, a⟩, cache ++ [⟨ssn, hash, a⟩], [i], 1⟩
          | none =>
            if rd env.mem (a + 3) = 0xE9 then
              match find_syscall_number env.mem a with
              | some ssn => ⟨Except.ok ⟨ssn, hash, a⟩, cache ++ [⟨ssn, hash, a⟩], [i], 2⟩
              | none => cont 2
            else cont 1
        else if rd env.mem (a + 3) = 0xE9 then
          match find_syscall_number env.mem a with
          | some ssn => ⟨Except.ok ⟨ssn, hash, a⟩, cache ++ [⟨ssn, hash, a⟩], [i], 1⟩
          | none => cont 1
        else cont 0
      else cont 0

/-- Embeds fetch_nt_syscall from hells_gate.rs: reject hash 0, try the
cache, lazily initialize G_NTDLL_CONF (propagating the init error), then
linearly scan export indices 0 .. dw_number_of_names - 2 (the source loop
bound is 0..count-1, which excludes the final index). -/
def fetch_nt_syscall (env : Env) (st : GState) (hash : Nat) : FetchOut :=
  if hash = 0 then
    ⟨Except.error "fetch_nt_syscall: dw_sys_hash argument is 0", st, ⟨0, 0, [], 0⟩⟩
  else
    match search_syscall_in_cache st.cache hash with
    | some syscall => ⟨Except.ok syscall, st, ⟨0, 1, [], 0⟩⟩
    | none =>
      match st.conf with
      | some conf =>
        let out := scan env conf hash st.cache (List.range (conf.numberOfNames - 1))
        ⟨out.result, ⟨some conf, out.cache⟩, ⟨0, 1, out.visited, out.bypassCalls⟩⟩
      | none =>
        match env.initRes with
        | Except.error e => ⟨Except.error e, st, ⟨1, 1, [], 0⟩⟩
        | Except.ok conf =>
          let out := scan env conf hash st.cache (List.range (conf.numberOfNames - 1))
          ⟨out.result, ⟨some conf, out.cache⟩, ⟨1, 1, out.visited, out.bypassCalls⟩⟩

/-- Machine state touched by the trampoline in asm.rs: the 32-bit
process-wide dispatch slot wSystemCall and the registers the two routines
write.  64-bit registers hold values mod 2^64; a 32-bit register write
zero-extends; a 32-bit store keeps only the low 32 bits. -/
structure AsmState where
  wSystemCall : Nat
  rax : Nat
  rcx : Nat
  r8 : Nat
  r10 : Nat
deriving DecidableEq

/-- Embeds set_ssn from asm.rs.  The argument (a usize, carried in rcx by
the calling convention) flows: xor eax,eax; store eax to the slot;
mov eax,ecx; mov r8d,eax; store r8d to the slot. -/
def set_ssn (s : AsmState) (ssn : Nat) : AsmState :=
  let s0 := { s with rcx := ssn % 18446744073709551616 }
  let s1 := { s0 with rax := 0 }
  let s2 := { s1 with wSystemCall := s1.rax % 4294967296 }
  let s3 := { s2 with rax := s2.rcx % 4294967296 }
  let s4 := { s3 with r8 := s3.rax % 4294967296 }
  { s4 with wSystemCall := s4.r8 % 4294967296 }

/-- Embeds run_direct_syscall from asm.rs up to the syscall instruction
(the executed path: xor r10,r10; mov rax,rcx; mov r10,rax; load the slot
into eax; jmp run skips the three dead instructions).  The returned state
is the state at the syscall instruction: rax carries the number handed to
the kernel, r10 the first argument. -/
def run_direct_syscall (s : AsmState) (arg1 : Nat) : AsmState :=
  let s0 := { s with rcx := arg1 % 18446744073709551616 }
  let s1 := { s0 with r10 := 0 }
  let s2 := { s1 with rax := s1.rcx }
  let s3 := { s2 with r10 := s2.rax }
  { s3 with rax := s3.wSystemCall % 4294967296 }

/-! Concrete instances used to exercise the embedding on closed inputs. -/

/-- Memory with a canonical prologue 32 bytes above address 0 whose
embedded syscall number is 0 (bytes 4 and 5 of the candidate are zero). -/
def memC1 : Mem := fun i =>
  if i = 32 then 0x4C else if i = 33 then 0x8B
  else if i = 34 then 0xD1 else if i = 35 then 0xB8 else 0

/-- Memory with a canonical prologue 32 bytes above address 0 whose
embedded syscall number is 7. -/
def memW1 : Mem := fun i =>
  if i = 32 then 0x4C else if i = 33 then 0x8B
  else if i = 34 then 0xD1 else if i = 35 then 0xB8
  else if i = 36 then 7 else 0

/-- Memory whose first canonical prologue sits 64 bytes above address 0
(step 2 of the search) with embedded syscall number 1. -/
def memC9 : Mem := fun i =>
  if i = 64 then 0x4C else if i = 65 then 0x8B
  else if i = 66 then 0xD1 else if i = 67 then 0xB8
  else if i = 68 then 1 else 0

/-- Export index with two names; index 0 hashes to 9 and its function at
address 200 has a canonical prologue with embedded number 51. -/
def confW2 : NtdllConfig :=
  ⟨2, fun i => if i = 0 then some 9 else none, fun _ => 200⟩

/-- Memory backing confW2: canonical prologue at address 200, bytes 4/5
encode 51. -/
def memW2 : Mem := fun i =>
  if i = 200 then 0x4C else if i = 201 then 0x8B
  else if i = 202 then 0xD1 else if i = 203 then 0xB8
  else if i = 204 then 51 else 0

/-- Environment whose config initialization succeeds with confW2. -/
def envW2 : Env := ⟨Except.ok confW2, memW2⟩

/-- The same module after a hook: every prologue byte zeroed out.  Used
only for a second resolution call, which must be served from the cache. -/
def envHooked : Env := ⟨Except.ok confW2, fun _ => 0⟩

/-- Export index with three names where indices 0 and 1 both hash to 5;
index 0 points at address 0 (unrecognized byte pattern), index 1 at
address 100 (canonical prologue). -/
def confC4 : NtdllConfig :=
  ⟨3, fun i => if i = 0 then some 5 else if i = 1 then some 5 else none,
   fun i => if i = 0 then 0 else if i = 1 then 100 else 0⟩

/-- Memory backing confC4: all zero around address 0 (no prologue, no
0xE9), canonical prologue with embedded number 42 at address 100. -/
def memC4 : Mem := fun i =>
  if i = 100 then 0x4C else if i = 101 then 0x8B
  else if i = 102 then 0xD1 else if i = 103 then 0xB8
  else if i = 104 then 42 else 0

/-- Environment whose config initialization succeeds with confC4. -/
def envC4 : Env := ⟨Except.ok confC4, memC4⟩

/-- Export index with two names; index 0 hashes to 100 and the final
index 1 hashes to 101, so hash 101 matches only the last exported name. -/
def confW5 : NtdllConfig :=
  ⟨2, fun i => if i = 0 then some 100 else some 101, fun _ => 0⟩

/-- Environment whose config initialization succeeds with confW5 over an
all-zero memory. -/
def envW5 : Env := ⟨Except.ok confW5, fun _ => 0⟩

/-- Environment whose config initialization fails, as when the export
directory cannot be located. -/
def envW8 : Env := ⟨Except.error "Failed to get export directory", fun _ => 0⟩

/-! Helper lemmas about the hook-bypass search. -/

theorem bypass_step_eq_none (mem : Mem) (a : Int) (s : Nat) :
    bypass_step mem a s = none ↔
      check_syscall_bytes mem a ((s : Int) * 32) = false ∧
        check_syscall_bytes mem a ((s : Int) * (-32)) = false := by
  unfold bypass_step
  rcases h1 : check_syscall_bytes mem a ((s : Int) * 32) <;>
    rcases h2 : check_syscall_bytes mem a ((s : Int) * (-32)) <;> simp [h1, h2]

theorem bypass_step_down (mem : Mem) (a : Int) (s : Nat)
    (h : check_syscall_bytes mem a ((s : Int) * 32) = true) :
    bypass_step mem a s =
      some ((extract_syscall_number mem a ((s : Int) * 32) + 65536 - s) % 65536) := by
  unfold bypass_step
  simp [h]

theorem bypass_step_up (mem : Mem) (a : Int) (s : Nat)
    (h1 : check_syscall_bytes mem a ((s : Int) * 32) = false)
    (h2 : check_syscall_bytes mem a ((s : Int) * (-32)) = true) :
    bypass_step mem a s =
      some ((extract_syscall_number mem a ((s : Int) * (-32)) + s) % 65536) := by
  unfold bypass_step
  rw [mul_neg] at h2
  simp [h1, h2, mul_neg]

theorem find_loop_eq_none (mem : Mem) (a : Int) :
    ∀ fuel idx, find_loop mem a idx fuel = none ↔
      ∀ s, idx ≤ s → s ≤ 255 → s < idx + fuel → bypass_step mem a s = none := by
  intro fuel
  induction fuel with
  | zero =>
    intro idx
    constructor
    · intro _ s h1 _ h3
      exact absurd h3 (by omega)
    · intro _
      rfl
  | succ fuel ih =>
    intro idx
    by_cases hidx : idx ≤ 255
    · rcases hstep : bypass_step mem a idx with _ | r
      · have hunf : find_loop mem a idx (fuel + 1) = find_loop mem a (idx + 1) fuel := by
          show (if idx ≤ 255 then
              match bypass_step mem a idx with
              | some r => some r
              | none => find_loop mem a (idx + 1) fuel
            else none) = find_loop mem a (idx + 1) fuel
          rw [if_pos hidx, hstep]
        rw [hunf, ih (idx + 1)]
        constructor
        · intro h s hs1 hs2 hs3
          rcases Nat.eq_or_lt_of_le hs1 with heq | hlt
          · exact heq ▸ hstep
          · exact h s hlt hs2 (by omega)
        · intro h s hs1 hs2 hs3
          exact h s (by omega) hs2 (by omega)
      · have hunf : find_loop mem a idx (fuel + 1) = some r := by
          show (if idx ≤ 255 then
              match bypass_step mem a idx with
              | some r => some r
              | none => find_loop mem a (idx + 1) fuel
            else none) = some r
          rw [if_pos hidx, hstep]
        rw [hunf]
        constructor
        · intro h
          exact absurd h (by simp)
        · intro h
          have hc := h idx (Nat.le_refl idx) hidx (by omega)
          rw [hc] at hstep
          exact absurd hstep (by simp)
    · have hunf : find_loop mem a idx (fuel + 1) = none := by
        show (if idx ≤ 255 then
            match bypass_step mem a idx with
            | some r => some r
            | none => find_loop mem a (idx + 1) fuel
          else none) = none
        rw [if_neg hidx]
      rw [hunf]
      constructor
      · intro _ s hs1 hs2 _
        exact absurd (Nat.le_trans hs1 hs2) hidx
      · intro _
        rfl

theorem find_loop_first (mem : Mem) (a : Int) :
    ∀ fuel idx s r, idx ≤ s → s ≤ 255 → s < idx + fuel →
      (∀ t, idx ≤ t → t < s → bypass_step mem a t = none) →
      bypass_step mem a s = some r → find_loop mem a idx fuel = some r := by
  intro fuel
  induction fuel with
  | zero =>
    intro idx s r h1 _ h3 _ _
    exact absurd h3 (by omega)
  | succ fuel ih =>
    intro idx s r h1 h2 h3 hmin hs
    have hidx : idx ≤ 255 := Nat.le_trans h1 h2
    rcases Nat.eq_or_lt_of_le h1 with heq | hlt
    · subst heq
      show (if idx ≤ 255 then
          match bypass_step mem a idx with
          | some r => some r
          | none => find_loop mem a (idx + 1) fuel
        else none) = some r
      rw [if_pos hidx, hs]
    · have h0 : bypass_step mem a idx = none := hmin idx (Nat.le_refl idx) hlt
      have hunf : find_loop mem a idx (fuel + 1) = find_loop mem a (idx + 1) fuel := by
        show (if idx ≤ 255 then
            match bypass_step mem a idx with
            | some r => some r
            | none => find_loop mem a (idx + 1) fuel
          else none) = find_loop mem a (idx + 1) fuel
        rw [if_pos hidx, h0]
      rw [hunf]
      exact ih (idx + 1) s r hlt h2 (by omega) (fun t ht1 ht2 => hmin t (by omega) ht2) hs

/-! Helper lemmas about the export-name scan. -/

theorem scan_cons_cases (env : Env) (conf : NtdllConfig) (hash : Nat) (cache : List NtSyscall)
    (i : Nat) (rest : List Nat) :
    (∃ nt bp, nt.dw_syscall_hash = hash ∧
      scan env conf hash cache (i :: rest) = ⟨Except.ok nt, cache ++ [nt], [i], bp⟩) ∨
    (∃ bp, scan env conf hash cache (i :: rest) =
      ⟨(scan env conf hash cache rest).result, (scan env conf hash cache rest).cache,
       i :: (scan env conf hash cache rest).visited,
       bp + (scan env conf hash cache rest).bypassCalls⟩) := by
  rcases hname : conf.nameHash i with _ | h
  · exact Or.inr ⟨0, by simp [scan, hname]⟩
  · by_cases hh : h = hash
    · subst hh
      by_cases hc : check_syscall_bytes env.mem (conf.funcAddr i) 0
      · exact Or.inl ⟨⟨extract_syscall_number env.mem (conf.funcAddr i) 0, h, conf.funcAddr i⟩,
          0, rfl, by simp [scan, hname, hc]⟩
      · by_cases h0 : rd env.mem (conf.funcAddr i) = 0xE9
        · rcases hf : find_syscall_number env.mem (conf.funcAddr i) with _ | ssn
          · by_cases h3 : rd env.mem (conf.funcAddr i + 3) = 0xE9
            · exact Or.inr ⟨2, by simp [scan, hname, hc, h0, hf, h3]⟩
            · exact Or.inr ⟨1, by simp [scan, hname, hc, h0, hf, h3]⟩
          · exact Or.inl ⟨⟨ssn, h, conf.funcAddr i⟩, 1, rfl,
              by simp [scan, hname, hc, h0, hf]⟩
        · by_cases h3 : rd env.mem (conf.funcAddr i + 3) = 0xE9
          · rcases hf : find_syscall_number env.mem (conf.funcAddr i) with _ | ssn
            · exact Or.inr ⟨1, by simp [scan, hname, hc, h0, h3, hf]⟩
            · exact Or.inl ⟨⟨ssn, h, conf.funcAddr i⟩, 1, rfl,
                by simp [scan, hname, hc, h0, h3, hf]⟩
          · exact Or.inr ⟨0, by simp [scan, hname, hc, h0, h3]⟩
    · exact Or.inr ⟨0, by simp [scan, hname, hh]⟩

theorem scan_error_spec (env : Env) (conf : NtdllConfig) (hash : Nat) (cache : List NtSyscall) :
    ∀ l e, (scan env conf hash cache l).result = Except.error e →
      e = "fetch_nt_syscall: Finished without finding syscall" ∧
      (scan env conf hash cache l).cache = cache ∧
      (scan env conf hash cache l).visited = l := by
  intro l
  induction l with
  | nil =>
    intro e he
    simp only [scan] at he
    injection he with h
    exact ⟨h.symm, rfl, rfl⟩
  | cons i rest ih =>
    intro e he
    rcases scan_cons_cases env conf hash cache i rest with ⟨nt, bp, _, heq⟩ | ⟨bp, heq⟩
    · rw [heq] at he
      exact absurd he (by simp)
    · rw [heq] at he ⊢
      have := ih e he
      exact ⟨this.1, this.2.1, by simp [this.2.2]⟩

theorem scan_ok_spec (env : Env) (conf : NtdllConfig) (hash : Nat) (cache : List NtSyscall) :
    ∀ l d, (scan env conf hash cache l).result = Except.ok d →
      d.dw_syscall_hash = hash ∧ (scan env conf hash cache l).cache = cache ++ [d] := by
  intro l
  induction l with
  | nil =>
    intro d hd
    simp only [scan] at hd
    exact absurd hd (by simp)
  | cons i rest ih =>
    intro d hd
    rcases scan_cons_cases env conf hash cache i rest with ⟨nt, bp, hnt, heq⟩ | ⟨bp, heq⟩
    · rw [heq] at hd ⊢
      have hnd : nt = d := by simpa using hd
      subst hnd
      exact ⟨hnt, rfl⟩
    · rw [heq] at hd ⊢
      exact ih d hd

theorem scan_visited_subset (env : Env) (conf : NtdllConfig) (hash : Nat)
    (cache : List NtSyscall) :
    ∀ l, (scan env conf hash cache l).visited ⊆ l := by
  intro l
  induction l with
  | nil => simp [scan]
  | cons i rest ih =>
    rcases scan_cons_cases env conf hash cache i rest with ⟨nt, bp, _, heq⟩ | ⟨bp, heq⟩
    · rw [heq]
      intro x hx
      simp only [List.mem_singleton] at hx
      simp [hx]
    · rw [heq]
      intro x hx
      rcases List.mem_cons.mp hx with hx | hx
      · simp [hx]
      · exact List.mem_cons_of_mem _ (ih hx)

theorem scan_skip_front (env : Env) (conf : NtdllConfig) (hash : Nat) (cache : List NtSyscall) :
    ∀ l₁ l₂, (∀ j ∈ l₁, conf.nameHash j ≠ some hash) →
      scan env conf hash cache (l₁ ++ l₂) =
        ⟨(scan env conf hash cache l₂).result, (scan env conf hash cache l₂).cache,
         l₁ ++ (scan env conf hash cache l₂).visited,
         (scan env conf hash cache l₂).bypassCalls⟩ := by
  intro l₁
  induction l₁ with
  | nil =>
    intro l₂ _
    simp
  | cons j l₁ ih =>
    intro l₂ hnone
    have hj : conf.nameHash j ≠ some hash := hnone j (List.mem_cons_self j l₁)
    have hrec := ih l₂ (fun x hx => hnone x (List.mem_cons_of_mem _ hx))
    rcases hname : conf.nameHash j with _ | h
    · simp only [List.cons_append, scan, hname, List.append_eq]
      rw [hrec]
      simp
    · have hne : h ≠ hash := fun he => hj (by rw [hname, he])
      simp only [List.cons_append, scan, hname, if_neg hne, List.append_eq]
      rw [hrec]
      simp

theorem scan_nomatch (env : Env) (conf : NtdllConfig) (hash : Nat) (cache : List NtSyscall)
    (l : List Nat) (hnone : ∀ j ∈ l, conf.nameHash j ≠ some hash) :
    scan env conf hash cache l =
      ⟨Except.error "fetch_nt_syscall: Finished without finding syscall", cache, l, 0⟩ := by
  have h := scan_skip_front env conf hash cache l [] hnone
  rw [List.append_nil] at h
  simpa [scan] using h

theorem search_cache_append (cache : List NtSyscall) (hash : Nat) (d : NtSyscall)
    (hmiss : search_syscall_in_cache cache hash = none)
    (hd : d.dw_syscall_hash = hash) :
    search_syscall_in_cache (cache ++ [d]) hash = some d := by
  unfold search_syscall_in_cache at hmiss ⊢
  rw [List.find?_append, hmiss]
  simp [List.find?, hd]

theorem range_split (i n : Nat) (h : i < n) :
    List.range n = List.range i ++ i :: List.range' (i + 1) (n - i - 1) := by
  have h2 : n - i + i = n := by omega
  have h3 : n - i = (n - i - 1) + 1 := by omega
  rw [List.range_eq_range', List.range_eq_range']
  calc List.range' 0 n = List.range' 0 (n - i + i) := by rw [h2]
    _ = List.range' 0 i ++ List.range' (0 + i) (n - i) := (List.range'_append_1 0 i (n - i)).symm
    _ = List.range' 0 i ++ List.range' i ((n - i - 1) + 1) := by rw [Nat.zero_add, ← h3]
    _ = List.range' 0 i ++ i :: List.range' (i + 1) (n - i - 1) := by rw [List.range'_succ]

theorem fetch_scan_path (env : Env) (st : GState) (conf : NtdllConfig) (hash : Nat)
    (hh : hash ≠ 0) (hmiss : search_syscall_in_cache st.cache hash = none)
    (hconf : st.conf = some conf) :
    fetch_nt_syscall env st hash =
      ⟨(scan env conf hash st.cache (List.range (conf.numberOfNames - 1))).result,
       ⟨some conf, (scan env conf hash st.cache (List.range (conf.numberOfNames - 1))).cache⟩,
       ⟨0, 1, (scan env conf hash st.cache (List.range (conf.numberOfNames - 1))).visited,
        (scan env conf hash st.cache (List.range (conf.numberOfNames - 1))).bypassCalls⟩⟩ := by
  unfold fetch_nt_syscall
  rw [if_neg hh, hmiss, hconf]

theorem fetch_init_path (env : Env) (st : GState) (conf : NtdllConfig) (hash : Nat)
    (hh : hash ≠ 0) (hmiss : search_syscall_in_cache st.cache hash = none)
    (hconf : st.conf = none) (hinit : env.initRes = Except.ok conf) :
    fetch_nt_syscall env st hash =
      ⟨(scan env conf hash st.cache (List.range (conf.numberOfNames - 1))).result,
       ⟨some conf, (scan env conf hash st.cache (List.range (conf.numberOfNames - 1))).cache⟩,
       ⟨1, 1, (scan env conf hash st.cache (List.range (conf.numberOfNames - 1))).visited,
        (scan env conf hash st.cache (List.range (conf.numberOfNames - 1))).bypassCalls⟩⟩ := by
  unfold fetch_nt_syscall
  rw [if_neg hh, hmiss, hconf, hinit]

theorem fetch_hit_path (env : Env) (st : GState) (hash : Nat) (d : NtSyscall)
    (hh : hash ≠ 0) (hhit : search_syscall_in_cache st.cache hash = some d) :
    fetch_nt_syscall env st hash = ⟨Except.ok d, st, ⟨0, 1, [], 0⟩⟩ := by
  unfold fetch_nt_syscall
  rw [if_neg hh, hhit]

theorem fetch_init_fail_path (env : Env) (st : GState) (hash : Nat) (e : String)
    (hh : hash ≠ 0) (hmiss : search_syscall_in_cache st.cache hash = none)
    (hconf : st.conf = none) (hinit : env.initRes = Except.error e) :
    fetch_nt_syscall env st hash = ⟨Except.error e, st, ⟨1, 1, [], 0⟩⟩ := by
  unfold fetch_nt_syscall
  rw [if_neg hh, hmiss, hconf, hinit]

/-! Claim theorems. -/

/-- Claim C1, as amended: for every hooked function address, the
hook-bypass search iterates a step count s from 1 to 255 inclusive,
checking the candidate offsets +s*32 and -s*32 bytes for the canonical
prologue with the downward direction first; on a match it returns
(n - s) mod 2^16 for the downward offset and (n + s) mod 2^16 for the
upward offset (wrapping 16-bit arithmetic), where n is the embedded
syscall number at the matching candidate; and it returns None exactly
when no candidate in the full window matches. -/
theorem C1_hook_bypass_search (mem : Mem) (a : Int) :
    (find_syscall_number mem a = none ↔
      ∀ s : Nat, 1 ≤ s → s ≤ 255 →
        check_syscall_bytes mem a ((s : Int) * 32) = false ∧
          check_syscall_bytes mem a ((s : Int) * (-32)) = false) ∧
    (∀ s : Nat, 1 ≤ s → s ≤ 255 →
      (∀ t : Nat, 1 ≤ t → t < s →
        check_syscall_bytes mem a ((t : Int) * 32) = false ∧
          check_syscall_bytes mem a ((t : Int) * (-32)) = false) →
      (check_syscall_bytes mem a ((s : Int) * 32) = true →
        find_syscall_number mem a =
          some ((extract_syscall_number mem a ((s : Int) * 32) + 65536 - s) % 65536)) ∧
      (check_syscall_bytes mem a ((s : Int) * 32) = false →
        check_syscall_bytes mem a ((s : Int) * (-32)) = true →
        find_syscall_number mem a =
          some ((extract_syscall_number mem a ((s : Int) * (-32)) + s) % 65536))) := by
  unfold find_syscall_number
  constructor
  · rw [find_loop_eq_none mem a 255 1]
    constructor
    · intro h s h1 h2
      exact (bypass_step_eq_none mem a s).mp (h s h1 h2 (by omega))
    · intro h s h1 h2 _
      exact (bypass_step_eq_none mem a s).mpr (h s h1 h2)
  · intro s h1 h2 hmin
    have hminstep : ∀ t, 1 ≤ t → t < s → bypass_step mem a t = none := fun t ht1 ht2 =>
      (bypass_step_eq_none mem a t).mpr (hmin t ht1 ht2)
    constructor
    · intro hc
      exact find_loop_first mem a 255 1 s _ h1 h2 (by omega) hminstep
        (bypass_step_down mem a s hc)
    · intro hc1 hc2
      exact find_loop_first mem a 255 1 s _ h1 h2 (by omega) hminstep
        (bypass_step_up mem a s hc1 hc2)

/-- Witness for C1: on memW1 the first match is downward at step 1 with
embedded number 7, and the search returns (7 - 1) mod 2^16 = 6. -/
theorem C1_hook_bypass_search_witness : find_syscall_number memW1 0 = some 6 := by
  have h := ((C1_hook_bypass_search memW1 0).2 1 (by omega) (by omega)
    (fun t ht1 ht2 => absurd (Nat.lt_of_lt_of_le ht2 ht1) (Nat.lt_irrefl t))).1 (by decide)
  exact h

/-- Counterexample to C1 as stated: on memC1 the downward candidate at
step 1 matches with embedded syscall number n = 0, and the search
returns 65535 = (0 - 1) mod 2^16, not n - s. -/
theorem C1_counterexample :
    check_syscall_bytes memC1 0 (((1 : Nat) : Int) * 32) = true ∧
    extract_syscall_number memC1 0 (((1 : Nat) : Int) * 32) = 0 ∧
    find_syscall_number memC1 0 = some 65535 ∧
    (65535 : Nat) ≠ extract_syscall_number memC1 0 (((1 : Nat) : Int) * 32) - 1 :=
  ⟨by decide, by decide, by decide, by decide⟩

/-- Claim C9: the hook-bypass result uses unchecked (wrapping) 16-bit
arithmetic: at a first match in the downward direction at step s with
embedded number n < s, the returned value is (n - s) wrapped mod 2^16
(different from the truncated difference n - s), and at a first match in
the upward direction with n + s at least 2^16 the returned value is
(n + s) mod 2^16, different from n + s; neither case is rejected. -/
theorem C9_wrapping_arithmetic (mem : Mem) (a : Int) (s : Nat)
    (h1 : 1 ≤ s) (h2 : s ≤ 255)
    (hmin : ∀ t : Nat, 1 ≤ t → t < s →
      check_syscall_bytes mem a ((t : Int) * 32) = false ∧
        check_syscall_bytes mem a ((t : Int) * (-32)) = false) :
    (check_syscall_bytes mem a ((s : Int) * 32) = true →
      extract_syscall_number mem a ((s : Int) * 32) < s →
      find_syscall_number mem a =
        some (extract_syscall_number mem a ((s : Int) * 32) + 65536 - s) ∧
      extract_syscall_number mem a ((s : Int) * 32) + 65536 - s ≠
        extract_syscall_number mem a ((s : Int) * 32) - s) ∧
    (check_syscall_bytes mem a ((s : Int) * 32) = false →
      check_syscall_bytes mem a ((s : Int) * (-32)) = true →
      65536 ≤ extract_syscall_number mem a ((s : Int) * (-32)) + s →
      find_syscall_number mem a =
        some ((extract_syscall_number mem a ((s : Int) * (-32)) + s) % 65536) ∧
      (extract_syscall_number mem a ((s : Int) * (-32)) + s) % 65536 ≠
        extract_syscall_number mem a ((s : Int) * (-32)) + s) := by
  unfold find_syscall_number
  have hminstep : ∀ t, 1 ≤ t → t < s → bypass_step mem a t = none := fun t ht1 ht2 =>
    (bypass_step_eq_none mem a t).mpr (hmin t ht1 ht2)
  constructor
  · intro hc hlt
    have hfind : find_loop mem a 1 255 =
        some ((extract_syscall_number mem a ((s : Int) * 32) + 65536 - s) % 65536) :=
      find_loop_first mem a 255 1 s _ h1 h2 (by omega) hminstep (bypass_step_down mem a s hc)
    have hmodeq : (extract_syscall_number mem a ((s : Int) * 32) + 65536 - s) % 65536 =
        extract_syscall_number mem a ((s : Int) * 32) + 65536 - s :=
      Nat.mod_eq_of_lt (by omega)
    constructor
    · rw [hfind, hmodeq]
    · omega
  · intro hc1 hc2 hge
    have hfind : find_loop mem a 1 255 =
        some ((extract_syscall_number mem a ((s : Int) * (-32)) + s) % 65536) :=
      find_loop_first mem a 255 1 s _ h1 h2 (by omega) hminstep (bypass_step_up mem a s hc1 hc2)
    have hlt : (extract_syscall_number mem a ((s : Int) * (-32)) + s) % 65536 < 65536 :=
      Nat.mod_lt _ (by omega)
    exact ⟨hfind, by omega⟩

/-- Witness for C9: on memC9 the first match is downward at step 2 with
embedded number 1 < 2, and the search returns the wrapped value
1 + 2^16 - 2 = 65535, while the truncated difference 1 - 2 is 0. -/
theorem C9_wrapping_arithmetic_witness :
    find_syscall_number memC9 0 = some 65535 ∧ (65535 : Nat) ≠ 1 - 2 := by
  have h := (C9_wrapping_arithmetic memC9 0 2 (by omega) (by omega)
    (fun t ht1 ht2 => by
      have ht : t = 1 := by omega
      subst ht
      exact ⟨by decide, by decide⟩)).1 (by decide) (by decide)
  exact h

/-- Claim C2 (confirmed): when the export scan reaches a name whose hash
matches and whose function bytes {0,1,2,3,6,7} are
{0x4C,0x8B,0xD1,0xB8,0x00,0x00}, resolution accepts the address directly,
decoding the syscall number as the little-endian 16-bit value from bytes
4 and 5 (extract_syscall_number), and the hook-bypass search is never
invoked: the trace records zero bypass calls. -/
theorem C2_canonical_prologue_direct (env : Env) (st : GState) (conf : NtdllConfig)
    (hash i : Nat)
    (hh : hash ≠ 0) (hmiss : search_syscall_in_cache st.cache hash = none)
    (hconf : st.conf = some conf)
    (hi : i < conf.numberOfNames - 1)
    (hfirst : ∀ j, j < i → conf.nameHash j ≠ some hash)
    (hmatch : conf.nameHash i = some hash)
    (hcheck : check_syscall_bytes env.mem (conf.funcAddr i) 0 = true) :
    fetch_nt_syscall env st hash =
      ⟨Except.ok ⟨extract_syscall_number env.mem (conf.funcAddr i) 0, hash, conf.funcAddr i⟩,
       ⟨some conf,
        st.cache ++
          [⟨extract_syscall_number env.mem (conf.funcAddr i) 0, hash, conf.funcAddr i⟩]⟩,
       ⟨0, 1, List.range (i + 1), 0⟩⟩ := by
  rw [fetch_scan_path env st conf hash hh hmiss hconf]
  rw [range_split i (conf.numberOfNames - 1) hi]
  rw [scan_skip_front env conf hash st.cache (List.range i)
    (i :: List.range' (i + 1) (conf.numberOfNames - 1 - i - 1))
    (fun j hj => hfirst j (List.mem_range.mp hj))]
  have hhead : scan env conf hash st.cache
      (i :: List.range' (i + 1) (conf.numberOfNames - 1 - i - 1)) =
      ⟨Except.ok ⟨extract_syscall_number env.mem (conf.funcAddr i) 0, hash, conf.funcAddr i⟩,
       st.cache ++
         [⟨extract_syscall_number env.mem (conf.funcAddr i) 0, hash, conf.funcAddr i⟩],
       [i], 0⟩ := by
    simp [scan, hmatch, hcheck]
  rw [hhead]
  have hr : List.range i ++ [i] = List.range (i + 1) := (List.range_succ i).symm
  simp [hr]

/-- Witness for C2: with confW2 (two names, index 0 hashing to 9, canonical
prologue with embedded number 51 at address 200) resolution returns the
direct descriptor with no bypass calls. -/
theorem C2_canonical_prologue_direct_witness :
    fetch_nt_syscall envW2 ⟨some confW2, []⟩ 9 =
      ⟨Except.ok ⟨51, 9, 200⟩, ⟨some confW2, [⟨51, 9, 200⟩]⟩, ⟨0, 1, List.range 1, 0⟩⟩ := by
  have h := C2_canonical_prologue_direct envW2 ⟨some confW2, []⟩ confW2 9 0
    (by omega) rfl rfl (by decide) (fun j hj => absurd hj (Nat.not_lt_zero j)) rfl (by decide)
  exact h

/-- Claim C3 (confirmed): if a first resolve call succeeds with descriptor
d, a second call for the same hash returns exactly d, leaves the state
untouched (the cached entry is never overwritten), and performs no export
scan, no config initialization, and no bypass call — whatever the memory
of the second call looks like (the prologue may have been modified in
between).  The cache still maps the hash to d. -/
theorem C3_cache_idempotence (env env2 : Env) (st : GState) (hash : Nat) (d : NtSyscall)
    (hok : (fetch_nt_syscall env st hash).result = Except.ok d) :
    fetch_nt_syscall env2 (fetch_nt_syscall env st hash).state hash =
      ⟨Except.ok d, (fetch_nt_syscall env st hash).state, ⟨0, 1, [], 0⟩⟩ ∧
    search_syscall_in_cache (fetch_nt_syscall env st hash).state.cache hash = some d := by
  by_cases hh : hash = 0
  · subst hh
    have hz : (fetch_nt_syscall env st 0).result =
        Except.error "fetch_nt_syscall: dw_sys_hash argument is 0" := by
      unfold fetch_nt_syscall
      rw [if_pos rfl]
    rw [hz] at hok
    exact absurd hok (by simp)
  · rcases hcache : search_syscall_in_cache st.cache hash with _ | sc
    · rcases hconf : st.conf with _ | conf
      · rcases hinit : env.initRes with e | conf
        · rw [fetch_init_fail_path env st hash e hh hcache hconf hinit] at hok
          exact absurd hok (by simp)
        · rw [fetch_init_path env st conf hash hh hcache hconf hinit] at hok ⊢
          simp only at hok ⊢
          obtain ⟨hdh, hcach⟩ :=
            scan_ok_spec env conf hash st.cache (List.range (conf.numberOfNames - 1)) d hok
          have hsearch : search_syscall_in_cache
              (scan env conf hash st.cache (List.range (conf.numberOfNames - 1))).cache hash =
              some d := by
            rw [hcach]
            exact search_cache_append st.cache hash d hcache hdh
          exact ⟨fetch_hit_path env2 _ hash d hh hsearch, hsearch⟩
      · rw [fetch_scan_path env st conf hash hh hcache hconf] at hok ⊢
        simp only at hok ⊢
        obtain ⟨hdh, hcach⟩ :=
          scan_ok_spec env conf hash st.cache (List.range (conf.numberOfNames - 1)) d hok
        have hsearch : search_syscall_in_cache
            (scan env conf hash st.cache (List.range (conf.numberOfNames - 1))).cache hash =
            some d := by
          rw [hcach]
          exact search_cache_append st.cache hash d hcache hdh
        exact ⟨fetch_hit_path env2 _ hash d hh hsearch, hsearch⟩
    · rw [fetch_hit_path env st hash sc hh hcache] at hok ⊢
      simp only at hok ⊢
      injection hok with hok
      subst hok
      exact ⟨fetch_hit_path env2 st hash sc hh hcache, hcache⟩

/-- Witness for C3: resolve hash 9 once against envW2, then resolve it
again against a module whose prologues have all been zeroed out
(envHooked): the second call is served from the cache with the identical
descriptor and an empty scan trace. -/
theorem C3_cache_idempotence_witness :
    fetch_nt_syscall envHooked (fetch_nt_syscall envW2 ⟨none, []⟩ 9).state 9 =
      ⟨Except.ok ⟨51, 9, 200⟩, (fetch_nt_syscall envW2 ⟨none, []⟩ 9).state, ⟨0, 1, [], 0⟩⟩ ∧
    search_syscall_in_cache (fetch_nt_syscall envW2 ⟨none, []⟩ 9).state.cache 9 =
      some ⟨51, 9, 200⟩ := by
  have h := C3_cache_idempotence envW2 envHooked ⟨none, []⟩ 9 ⟨51, 9, 200⟩ rfl
  exact h

/-- Counterexample to C4 as stated: in envC4 index 0 hashes to 5 and its
bytes are neither canonical nor a recognized hook shape, yet resolution of
hash 5 does not fail: the scan continues to index 1 (also hashing to 5)
and succeeds with its descriptor, visiting [0, 1]. -/
theorem C4_counterexample :
    confC4.nameHash 0 = some 5 ∧
    check_syscall_bytes memC4 (confC4.funcAddr 0) 0 = false ∧
    rd memC4 (confC4.funcAddr 0) ≠ 0xE9 ∧
    rd memC4 (confC4.funcAddr 0 + 3) ≠ 0xE9 ∧
    (fetch_nt_syscall envC4 ⟨none, []⟩ 5).result = Except.ok ⟨42, 5, 100⟩ ∧
    (fetch_nt_syscall envC4 ⟨none, []⟩ 5).trace.scanned = [0, 1] :=
  ⟨rfl, by decide, by decide, by decide, rfl, rfl⟩

/-- Claim C4, as amended: when the scan reaches a name whose hash matches
but whose bytes are neither the canonical prologue nor a recognized hook
shape (byte 0 = 0xE9 or byte 3 = 0xE9), the scan continues with the
remaining indices (the unrecognized match is skipped, not terminal), and
any resolution failure is the terminal SyscallNotFound error produced only
after the scan is exhausted. -/
theorem C4_unrecognized_pattern_continues (env : Env) (conf : NtdllConfig) (hash : Nat)
    (cache : List NtSyscall) (i : Nat) (rest : List Nat)
    (hm : conf.nameHash i = some hash)
    (hc : check_syscall_bytes env.mem (conf.funcAddr i) 0 = false)
    (h0 : rd env.mem (conf.funcAddr i) ≠ 0xE9)
    (h3 : rd env.mem (conf.funcAddr i + 3) ≠ 0xE9) :
    scan env conf hash cache (i :: rest) =
      ⟨(scan env conf hash cache rest).result, (scan env conf hash cache rest).cache,
       i :: (scan env conf hash cache rest).visited,
       (scan env conf hash cache rest).bypassCalls⟩ ∧
    ∀ e, (scan env conf hash cache (i :: rest)).result = Except.error e →
      e = "fetch_nt_syscall: Finished without finding syscall" := by
  constructor
  · simp [scan, hm, hc, h0, h3]
  · intro e he
    exact (scan_error_spec env conf hash cache (i :: rest) e he).1

/-- Witness for C4 (amended): in envC4 the scan over [0, 1] for hash 5
skips the unrecognized match at index 0 and equals the scan over [1] with
index 0 prepended to the visited list. -/
theorem C4_unrecognized_pattern_continues_witness :
    scan envC4 confC4 5 [] [0, 1] =
      ⟨(scan envC4 confC4 5 [] [1]).result, (scan envC4 confC4 5 [] [1]).cache,
       0 :: (scan envC4 confC4 5 [] [1]).visited,
       (scan envC4 confC4 5 [] [1]).bypassCalls⟩ :=
  (C4_unrecognized_pattern_continues envC4 confC4 5 [] 0 [1]
    rfl (by decide) (by decide) (by decide)).1

/-- Claim C5 (confirmed): the linear resolution scan runs over the indices
0 .. count-2 only: every visited index lies in that range, the final index
count-1 is never examined, a completed (not-found) scan visited exactly
0 .. count-2, and a hash matched only by the name at the final index is
never found. -/
theorem C5_scan_excludes_last_index (env : Env) (st : GState) (conf : NtdllConfig) (hash : Nat)
    (hconf : st.conf = some conf) (hh : hash ≠ 0)
    (hmiss : search_syscall_in_cache st.cache hash = none) :
    (fetch_nt_syscall env st hash).trace.scanned ⊆ List.range (conf.numberOfNames - 1) ∧
    (conf.numberOfNames - 1) ∉ (fetch_nt_syscall env st hash).trace.scanned ∧
    ((fetch_nt_syscall env st hash).result =
        Except.error "fetch_nt_syscall: Finished without finding syscall" →
      (fetch_nt_syscall env st hash).trace.scanned = List.range (conf.numberOfNames - 1)) ∧
    ((∀ i, i < conf.numberOfNames - 1 → conf.nameHash i ≠ some hash) →
      (fetch_nt_syscall env st hash).result =
        Except.error "fetch_nt_syscall: Finished without finding syscall") := by
  rw [fetch_scan_path env st conf hash hh hmiss hconf]
  simp only
  refine ⟨?_, ?_, ?_, ?_⟩
  · exact scan_visited_subset env conf hash st.cache (List.range (conf.numberOfNames - 1))
  · intro hmem
    have h1 := scan_visited_subset env conf hash st.cache
      (List.range (conf.numberOfNames - 1)) hmem
    have h2 := List.mem_range.mp h1
    omega
  · intro he
    exact (scan_error_spec env conf hash st.cache (List.range (conf.numberOfNames - 1)) _ he).2.2
  · intro hnone
    rw [scan_nomatch env conf hash st.cache (List.range (conf.numberOfNames - 1))
      (fun j hj => hnone j (List.mem_range.mp hj))]

/-- Witness for C5: with confW5 (count = 2, only the final index 1 hashes
to 101) resolution of hash 101 scans exactly [0], never examines index 1,
and fails with the not-found error. -/
theorem C5_scan_excludes_last_index_witness :
    (fetch_nt_syscall envW5 ⟨some confW5, []⟩ 101).trace.scanned ⊆ List.range 1 ∧
    (1 : Nat) ∉ (fetch_nt_syscall envW5 ⟨some confW5, []⟩ 101).trace.scanned ∧
    (fetch_nt_syscall envW5 ⟨some confW5, []⟩ 101).result =
      Except.error "fetch_nt_syscall: Finished without finding syscall" := by
  have h := C5_scan_excludes_last_index envW5 ⟨some confW5, []⟩ confW5 101 rfl (by omega) rfl
  have hr := h.2.2.2 (fun i hi => by
    have h2 : confW5.numberOfNames = 2 := rfl
    rw [h2] at hi
    have h0 : i = 0 := by omega
    subst h0
    decide)
  exact ⟨h.1, h.2.1, hr⟩

/-- Claim C6 (confirmed): resolving hash 0 always returns the descriptive
error immediately: no cache lookup, no config initialization, no scan and
no bypass call happen, and the state is untouched. -/
theorem C6_zero_hash_rejected (env : Env) (st : GState) :
    fetch_nt_syscall env st 0 =
      ⟨Except.error "fetch_nt_syscall: dw_sys_hash argument is 0", st, ⟨0, 0, [], 0⟩⟩ := by
  unfold fetch_nt_syscall
  rw [if_pos rfl]

/-- Claim C8 (confirmed): whenever fetch_nt_syscall returns an error — the
zero hash, a failed config initialization, an unmatched hash, or an
exhausted hook-bypass search — the cache is exactly what it was before the
call: insertion happens only on the success paths. -/
theorem C8_error_atomicity (env : Env) (st : GState) (hash : Nat) (e : String)
    (herr : (fetch_nt_syscall env st hash).result = Except.error e) :
    (fetch_nt_syscall env st hash).state.cache = st.cache := by
  by_cases hh : hash = 0
  · subst hh
    unfold fetch_nt_syscall
    rw [if_pos rfl]
  · rcases hcache : search_syscall_in_cache st.cache hash with _ | sc
    · rcases hconf : st.conf with _ | conf
      · rcases hinit : env.initRes with e2 | conf
        · rw [fetch_init_fail_path env st hash e2 hh hcache hconf hinit]
        · rw [fetch_init_path env st conf hash hh hcache hconf hinit] at herr ⊢
          simp only at herr ⊢
          exact (scan_error_spec env conf hash st.cache
            (List.range (conf.numberOfNames - 1)) e herr).2.1
      · rw [fetch_scan_path env st conf hash hh hcache hconf] at herr ⊢
        simp only at herr ⊢
        exact (scan_error_spec env conf hash st.cache
          (List.range (conf.numberOfNames - 1)) e herr).2.1
    · rw [fetch_hit_path env st hash sc hh hcache] at herr
      simp only at herr
      exact absurd herr (by simp)

/-- Witness for C8: a call whose config initialization fails leaves the
empty cache empty. -/
theorem C8_error_atomicity_witness :
    (fetch_nt_syscall envW8 ⟨none, []⟩ 1).state.cache = ([] : List NtSyscall) :=
  C8_error_atomicity envW8 ⟨none, []⟩ 1 "Failed to get export directory" rfl

/-- Counterexample to C7 as stated: set_ssn with the pointer-sized value
2^32 leaves 0 in the 32-bit dispatch slot, not 2^32. -/
theorem C7_counterexample :
    (set_ssn ⟨0, 0, 0, 0, 0⟩ 4294967296).wSystemCall = 0 ∧ (0 : Nat) ≠ 4294967296 :=
  ⟨by decide, by decide⟩

/-- Claim C7, as amended: set_ssn stores n mod 2^32 into the process-wide
dispatch slot with no validation, unconditionally overwriting any previous
value (the result is independent of the prior state), and a subsequent
run_direct_syscall loads exactly the stored slot value into rax, the
register that carries the syscall number at the kernel-transfer
instruction. -/
theorem C7_set_then_run (s : AsmState) (n arg : Nat) :
    (set_ssn s n).wSystemCall = n % 4294967296 ∧
    (run_direct_syscall (set_ssn s n) arg).rax = (set_ssn s n).wSystemCall ∧
    (run_direct_syscall (set_ssn s n) arg).rax = n % 4294967296 := by
  unfold set_ssn run_direct_syscall
  simp only
  refine ⟨by omega, by omega, by omega⟩

/-- Claim C10 (confirmed): set_ssn accepts a full pointer-sized integer
but only its low 32 bits reach the 32-bit dispatch slot: the slot holds
n mod 2^32 afterwards, always below 2^32. -/
theorem C10_slot_truncates_to_32_bits (s : AsmState) (n : Nat) :
    (set_ssn s n).wSystemCall = n % 4294967296 ∧
    (set_ssn s n).wSystemCall < 4294967296 := by
  unfold set_ssn
  simp only
  refine ⟨by omega, by omega⟩

end Syscalls
